import Mathlib

/-!
Verification model of the `analysis_pension_ceilings` data pipeline.

The pipeline (src/analysis_pension_ceilings/process/) has three stages over a
table of pension brackets: clean, preprocess, postprocess, plus a scalar
summary aggregation.  Rows are modelled as lists of records, numeric cell
values as exact rationals, fallible stages as `Option`.
-/

set_option maxRecDepth 4000

/-- Value of a string of decimal digit characters, as Python `int` reads it. -/
def digitsToNat (ds : List Char) : ℕ :=
  ds.foldl (fun a c => 10 * a + (c.toNat - 48)) 0

/--
Scanner for the regex `\d{1,6}` as used by `re.findall` in
`process/node/preprocess.py` (`extract_numbers`): scan left to right, and at
each digit greedily take up to six consecutive digits as one match, resuming
after the match.  `cur` is the reversed run of digits collected so far
(at most five characters pending, a sixth closes the match).
-/
def findRunsAux : List Char → List Char → List (List Char)
  | [], cur => if cur.isEmpty then [] else [cur.reverse]
  | c :: cs, cur =>
    if c.isDigit then
      if cur.length = 5 then (cur.reverse ++ [c]) :: findRunsAux cs []
      else findRunsAux cs (c :: cur)
    else
      if cur.isEmpty then findRunsAux cs []
      else cur.reverse :: findRunsAux cs []

/--
`extract_numbers` of `process/node/preprocess.py` lines 9-11:
`re.findall(r"\d{1,6}", text)` followed by conversion of each run to `int`
(the conversion happens in `node_extract_numbers`).  ASCII digits model `\d`.
-/
def extract_numbers (s : String) : List ℕ :=
  (findRunsAux s.toList []).map digitsToNat

/-- Unsigned decimal number parser: digits, optionally a point and digits. -/
def parseUnsigned (cs : List Char) : Option ℚ :=
  match cs.dropWhile Char.isDigit with
  | [] =>
    if (cs.takeWhile Char.isDigit).isEmpty then none
    else some ((digitsToNat (cs.takeWhile Char.isDigit) : ℚ))
  | '.' :: frac =>
    if frac.all Char.isDigit &&
        !((cs.takeWhile Char.isDigit).isEmpty && frac.isEmpty) then
      some ((digitsToNat (cs.takeWhile Char.isDigit) : ℚ) +
        (digitsToNat frac : ℚ) / (10 : ℚ) ^ frac.length)
    else none
  | _ => none

/--
Model of the strict polars cast of a text column to `Float64`
(`pl.col("percentage").cast(pl.Float64)` in `pipeline/preprocess.py` line 32):
parses an optionally signed decimal numeral, `none` on non-numeric text.
-/
def cast_float (s : String) : Option ℚ :=
  match s.toList with
  | '-' :: cs => (parseUnsigned cs).map (fun q => -q)
  | '+' :: cs => parseUnsigned cs
  | cs => parseUnsigned cs

/--
`statistics.mean`, applied per row by `node_average_list_numbers`
(`process/node/preprocess.py` lines 106-111): raises on an empty list
(modelled as `none`), otherwise the exact mean.
-/
def mean (l : List ℚ) : Option ℚ :=
  if l.isEmpty then none else some (l.sum / l.length)

/-- A row after `pipeline_clean`: the two retained text columns. -/
structure BracketRecord where
  slice_amount : String
  percentage : String
deriving DecidableEq

/-- A row after `pipeline_preprocess`: both columns numeric. -/
structure BracketStat where
  percentage : ℚ
  average_pension : ℚ
deriving DecidableEq

/-- A row after `pipeline_postprocess` (`pipeline/postprocess.py` OutputSchema). -/
structure BracketResult where
  percentage : ℚ
  average_pension : ℚ
  number_pensioners : ℚ
  average_benefits : ℤ
  total_average_benefits : ℚ
  total_average_pension : ℚ
  average_pension_after_ceiling : ℚ
deriving DecidableEq

/-- Row-wise fallible map: `none` as soon as one row fails, as a polars
`map_elements` raises when the Python callable raises on any row. -/
def traverseOpt {α β : Type} (f : α → Option β) : List α → Option (List β)
  | [] => some []
  | a :: l =>
    match f a, traverseOpt f l with
    | some b, some bs => some (b :: bs)
    | _, _ => none

/--
One row of `pipeline_preprocess` (`pipeline/preprocess.py` lines 31-38):
cast the percentage text to float, extract the numbers of the label and
average them (`statistics.mean` raises on zero extracted numbers).
-/
def preprocessRow (r : BracketRecord) : Option BracketStat :=
  match cast_float r.percentage,
      mean ((extract_numbers r.slice_amount).map (fun n : ℕ => (n : ℚ))) with
  | some p, some m => some ⟨p, m⟩
  | _, _ => none

/-- `df[-1, "average_pension"] = average_open_ended`
(`pipeline/preprocess.py` line 44): overwrite the last row's average. -/
def setLastAvg (a : ℚ) : List BracketStat → List BracketStat
  | [] => []
  | [r] => [⟨r.percentage, a⟩]
  | r :: s :: rest => r :: setLastAvg a (s :: rest)

/--
`pipeline_preprocess` of `pipeline/preprocess.py`: pandera re-validates the
input schema of `pipeline_clean` (unique `slice_amount`), the percentage cast
and the per-row extraction average run next, and the last row's average is
overwritten at the end; indexing `df[-1, _]` raises on an empty frame.
-/
def pipeline_preprocess (df : List BracketRecord) (average_open_ended : ℚ) :
    Option (List BracketStat) :=
  if (df.map BracketRecord.slice_amount).Nodup then
    match traverseOpt preprocessRow df with
    | none => none
    | some stats =>
      if stats.isEmpty then none else some (setLastAvg average_open_ended stats)
  else none

/-- Truncation of a rational toward zero, the float-to-integer conversion of
a polars integer cast. -/
def castTruncZ (q : ℚ) : ℤ :=
  Int.tdiv q.num (q.den : ℤ)

/-- Strict polars cast of a float value to `Int32`
(`.cast(pl.Int32)` in `pipeline/postprocess.py` line 38): truncate toward
zero, raise (`none`) when the result does not fit a 32-bit signed integer. -/
def castInt32 (q : ℚ) : Option ℤ :=
  if -(2 ^ 31) ≤ castTruncZ q ∧ castTruncZ q < 2 ^ 31 then some (castTruncZ q)
  else none

/-- The ceiling rule before the integer cast
(`pipeline/postprocess.py` lines 33-37): `when(avg - ceiling > 0)
.then(avg - ceiling).otherwise(0)`. -/
def benefitsRaw (ceiling : ℤ) (s : BracketStat) : ℚ :=
  if s.average_pension - (ceiling : ℚ) > 0 then s.average_pension - (ceiling : ℚ)
  else 0

/-- One row of `pipeline_postprocess` (`pipeline/postprocess.py` lines 28-51). -/
def postprocessRow (ceiling nbr_pensioners : ℤ) (s : BracketStat) :
    Option BracketResult :=
  match castInt32 (benefitsRaw ceiling s) with
  | none => none
  | some b =>
    some
      { percentage := s.percentage
        average_pension := s.average_pension
        number_pensioners := s.percentage / 100 * (nbr_pensioners : ℚ)
        average_benefits := b
        total_average_benefits := (b : ℚ) * (s.percentage / 100 * (nbr_pensioners : ℚ))
        total_average_pension := s.average_pension * (s.percentage / 100 * (nbr_pensioners : ℚ))
        average_pension_after_ceiling := s.average_pension - (b : ℚ) }

/-- `pipeline_postprocess` of `pipeline/postprocess.py`: purely row-wise. -/
def pipeline_postprocess (df : List BracketStat) (ceiling nbr_pensioners : ℤ) :
    Option (List BracketResult) :=
  traverseOpt (postprocessRow ceiling nbr_pensioners) df

/-- The raw bracket-amount column header of the source sheet
(`pipeline/clean.py` MAPPING_COLUMNS). -/
def montantCol : String := "Montant\r\nde pension\r\n(en euros)"

/-- The raw aggregate-percentage column header (`pipeline/clean.py`). -/
def ensembleCol : String := "Ensemble"

/-- Canonical name of the bracket-label column after renaming. -/
def sliceCol : String := "slice_amount"

/-- Canonical name of the percentage column after renaming. -/
def percentageCol : String := "percentage"

/-- Default cell used only to make positional projection total; a polars
frame is rectangular so the default is never read on real input. -/
def emptyCell : String := ""

/-- A raw spreadsheet extract: column labels and row-major cells (polars
casts every promoted header value to `str`, so cells are modelled as text). -/
structure RawFrame where
  cols : List String
  rows : List (List String)
deriving DecidableEq

/-- `node_drop_lines` of `process/node/clean.py` lines 4-38:
`df.tail(height - n_first)` then `df.head(height - n_last)`. -/
def node_drop_lines (f : RawFrame) (n_first n_last : ℕ) : RawFrame :=
  ⟨f.cols, (f.rows.drop n_first).take (f.rows.length - n_first - n_last)⟩

/-- `node_refresh_header` of `process/node/clean.py` lines 41-81: promote the
first row to the header.  `line.pop()` raises on an empty frame, and the
polars `rename` raises when the promoted header holds duplicate names. -/
def node_refresh_header (f : RawFrame) : Option RawFrame :=
  match f.rows with
  | [] => none
  | h :: rest => if h.Nodup then some ⟨h, rest⟩ else none

/-- The fixed `MAPPING_COLUMNS` rename of `pipeline/clean.py` lines 13-16,
as the total function it applies to each column name. -/
def renameCol (c : String) : String :=
  if c = montantCol then sliceCol
  else if c = ensembleCol then percentageCol
  else c

/-- The projection `df[["slice_amount", "percentage"]]` of
`pipeline/clean.py` line 56, positionally on the renamed columns. -/
def projectRecords (f : RawFrame) : List BracketRecord :=
  f.rows.map (fun row =>
    ⟨row.getD ((f.cols.map renameCol).indexOf sliceCol) emptyCell,
      row.getD ((f.cols.map renameCol).indexOf percentageCol) emptyCell⟩)

/--
`pipeline_clean` of `pipeline/clean.py` lines 24-58 with the default column
mapping: drop rows, promote the header, rename via `MAPPING_COLUMNS`
(polars raises when a mapping key is absent, or when renaming would create a
duplicate column name), project to the two canonical columns, and let the
pandera `OutputSchema` reject non-unique `slice_amount` values.
-/
def pipeline_clean (f : RawFrame) (n_first n_last : ℕ) :
    Option (List BracketRecord) :=
  (node_refresh_header (node_drop_lines f n_first n_last)).bind (fun f2 =>
    if montantCol ∈ f2.cols ∧ ensembleCol ∈ f2.cols then
      if (f2.cols.map renameCol).Nodup then
        if ((projectRecords f2).map BracketRecord.slice_amount).Nodup then
          some (projectRecords f2)
        else none
      else none
    else none)

/-- The scalar summary returned by `calcul_statistics_pension_ceilings`
(`process.py` lines 274-280). -/
structure SummaryStats where
  total_benefits_month : ℚ
  total_benefits_year : ℚ
  total_pension_month : ℚ
  total_pension_year : ℚ
  percentage_benefits : ℚ
deriving DecidableEq

/-- `df["total_average_pension"].sum()` (`process.py` line 262). -/
def totalPensionSum (df : List BracketResult) : ℚ :=
  (df.map BracketResult.total_average_pension).sum

/-- `df["total_average_benefits"].sum()` (`process.py` line 263). -/
def totalBenefitsSum (df : List BracketResult) : ℚ :=
  (df.map BracketResult.total_average_benefits).sum

/--
The summary aggregation of `calcul_statistics_pension_ceilings`
(`process.py` lines 262-280) over an already postprocessed table: the two
column sums and `percentage_benefits = total_benefits / total_pension`, where
the Python float division raises `ZeroDivisionError` when `total_pension`
is zero (modelled as `none`).
-/
def calcul_statistics_pension_ceilings (df : List BracketResult) :
    Option SummaryStats :=
  if totalPensionSum df = 0 then none
  else
    some
      { total_benefits_month := totalBenefitsSum df
        total_benefits_year := totalBenefitsSum df * 12
        total_pension_month := totalPensionSum df
        total_pension_year := totalPensionSum df * 12
        percentage_benefits := totalBenefitsSum df / totalPensionSum df }

/-! ### Helper lemmas -/

theorem traverseOpt_length {α β : Type} (f : α → Option β) :
    ∀ (l : List α) (out : List β), traverseOpt f l = some out →
      out.length = l.length := by
  intro l
  induction l with
  | nil =>
    intro out h
    simp only [traverseOpt, Option.some.injEq] at h
    subst h
    rfl
  | cons a l ih =>
    intro out h
    simp only [traverseOpt] at h
    rcases hfa : f a with _ | b <;> rw [hfa] at h
    · exact absurd h (by simp)
    rcases ht : traverseOpt f l with _ | bs <;> rw [ht] at h
    · exact absurd h (by simp)
    · simp only [Option.some.injEq] at h
      subst h
      simp [ih _ ht]

theorem traverseOpt_getElem? {α β : Type} (f : α → Option β) :
    ∀ (l : List α) (out : List β), traverseOpt f l = some out →
      ∀ (i : ℕ) (b : β), out[i]? = some b →
        ∃ a, l[i]? = some a ∧ f a = some b := by
  intro l
  induction l with
  | nil =>
    intro out h i b hb
    simp only [traverseOpt, Option.some.injEq] at h
    subst h
    simp at hb
  | cons a l ih =>
    intro out h i b hb
    simp only [traverseOpt] at h
    rcases hfa : f a with _ | b0 <;> rw [hfa] at h
    · exact absurd h (by simp)
    rcases ht : traverseOpt f l with _ | bs <;> rw [ht] at h
    · exact absurd h (by simp)
    simp only [Option.some.injEq] at h
    subst h
    match i with
    | 0 =>
      simp only [List.getElem?_cons_zero, Option.some.injEq] at hb
      subst hb
      exact ⟨a, by simp, hfa⟩
    | i + 1 =>
      simp only [List.getElem?_cons_succ] at hb
      obtain ⟨a', ha', hfa'⟩ := ih _ ht i b hb
      exact ⟨a', by simpa using ha', hfa'⟩

theorem traverseOpt_of_mem_none {α β : Type} (f : α → Option β) :
    ∀ (l : List α) (a : α), a ∈ l → f a = none → traverseOpt f l = none := by
  intro l
  induction l with
  | nil => intro a ha; simp at ha
  | cons x l ih =>
    intro a ha hfa
    simp only [List.mem_cons] at ha
    simp only [traverseOpt]
    rcases ha with rfl | ha
    · rw [hfa]
    · rcases hx : f x with _ | b
      · rfl
      · rw [ih a ha hfa]

theorem setLastAvg_length (a : ℚ) :
    ∀ l : List BracketStat, (setLastAvg a l).length = l.length
  | [] => rfl
  | [_] => rfl
  | r :: s :: rest => by
    simp only [setLastAvg, List.length_cons]
    simpa using setLastAvg_length a (s :: rest)

theorem setLastAvg_getElem?_of_lt (a : ℚ) :
    ∀ (l : List BracketStat) (i : ℕ), i + 1 < l.length →
      (setLastAvg a l)[i]? = l[i]?
  | [], i, h => by simp at h
  | [_], i, h => by simp at h
  | r :: s :: rest, 0, _ => by simp [setLastAvg]
  | r :: s :: rest, i + 1, h => by
    simp only [setLastAvg, List.getElem?_cons_succ]
    exact setLastAvg_getElem?_of_lt a (s :: rest) i (by simpa using h)

theorem setLastAvg_last (a : ℚ) :
    ∀ (l : List BracketStat) (i : ℕ), i + 1 = l.length →
      ∃ s, l[i]? = some s ∧ (setLastAvg a l)[i]? = some ⟨s.percentage, a⟩
  | [], i, h => by simp at h
  | [r], 0, _ => ⟨r, rfl, rfl⟩
  | r :: s :: rest, i + 1, h => by
    simp only [setLastAvg, List.getElem?_cons_succ]
    exact setLastAvg_last a (s :: rest) i (by simpa using h)

theorem setLastAvg_percentage (a : ℚ) :
    ∀ (l : List BracketStat) (i : ℕ),
      ((setLastAvg a l)[i]?).map BracketStat.percentage =
        (l[i]?).map BracketStat.percentage
  | [], _ => rfl
  | [_], 0 => rfl
  | [_], _ + 1 => rfl
  | r :: s :: rest, 0 => by simp [setLastAvg]
  | r :: s :: rest, i + 1 => by
    simp only [setLastAvg, List.getElem?_cons_succ]
    exact setLastAvg_percentage a (s :: rest) i

theorem mean_eq_some {l : List ℚ} {m : ℚ} (h : mean l = some m) :
    l ≠ [] ∧ m = l.sum / l.length := by
  by_cases he : l.isEmpty
  · rw [mean, if_pos he] at h
    exact absurd h (by simp)
  · rw [mean, if_neg he] at h
    simp only [Option.some.injEq] at h
    exact ⟨fun hl => he (by simp [hl]), h.symm⟩

theorem castInt32_eq_some {q : ℚ} {b : ℤ} (h : castInt32 q = some b) :
    b = castTruncZ q ∧ -(2 ^ 31) ≤ b ∧ b < 2 ^ 31 := by
  unfold castInt32 at h
  split at h
  · simp only [Option.some.injEq] at h
    subst h
    exact ⟨rfl, by assumption⟩
  · exact absurd h (by simp)

theorem benefitsRaw_eq_max (c : ℤ) (s : BracketStat) :
    benefitsRaw c s = max (s.average_pension - (c : ℚ)) 0 := by
  unfold benefitsRaw
  rcases le_or_lt (s.average_pension - (c : ℚ)) 0 with h | h
  · rw [if_neg (by simpa using h), max_eq_right h]
  · rw [if_pos h, max_eq_left h.le]

theorem benefitsRaw_nonneg (c : ℤ) (s : BracketStat) : 0 ≤ benefitsRaw c s := by
  rw [benefitsRaw_eq_max]
  exact le_max_right _ _

theorem castTruncZ_eq_floor {q : ℚ} (h : 0 ≤ q) : castTruncZ q = ⌊q⌋ := by
  rw [Rat.floor_def, castTruncZ,
    Int.tdiv_eq_ediv (Rat.num_nonneg.mpr h) (by exact_mod_cast Nat.zero_le q.den)]

theorem castTruncZ_nonneg {q : ℚ} (h : 0 ≤ q) : 0 ≤ castTruncZ q := by
  rw [castTruncZ_eq_floor h]
  exact Int.floor_nonneg.mpr h

theorem castTruncZ_le {q : ℚ} (h : 0 ≤ q) : (castTruncZ q : ℚ) ≤ q := by
  rw [castTruncZ_eq_floor h]
  exact Int.floor_le q

theorem postprocessRow_eq_some {c n : ℤ} {s : BracketStat} {r : BracketResult}
    (h : postprocessRow c n s = some r) :
    ∃ b, castInt32 (benefitsRaw c s) = some b ∧
      r = ⟨s.percentage, s.average_pension, s.percentage / 100 * (n : ℚ), b,
        (b : ℚ) * (s.percentage / 100 * (n : ℚ)),
        s.average_pension * (s.percentage / 100 * (n : ℚ)),
        s.average_pension - (b : ℚ)⟩ := by
  unfold postprocessRow at h
  rcases hc : castInt32 (benefitsRaw c s) with _ | b <;> rw [hc] at h
  · exact absurd h (by simp)
  · simp only [Option.some.injEq] at h
    exact ⟨b, rfl, h.symm⟩

theorem pipeline_postprocess_row {df : List BracketStat} {c n : ℤ}
    {out : List BracketResult} (h : pipeline_postprocess df c n = some out)
    {i : ℕ} {s : BracketStat} {r : BracketResult}
    (hs : df[i]? = some s) (hr : out[i]? = some r) :
    postprocessRow c n s = some r := by
  obtain ⟨s', hs', hrow⟩ := traverseOpt_getElem? _ df out h i r hr
  rw [hs] at hs'
  simp only [Option.some.injEq] at hs'
  rwa [hs']

theorem traverseOpt_nil {α β : Type} (f : α → Option β) :
    traverseOpt f [] = some [] := rfl

theorem traverseOpt_cons_some {α β : Type} (f : α → Option β) (a : α) (l : List α)
    {b : β} {bs : List β} (ha : f a = some b) (hl : traverseOpt f l = some bs) :
    traverseOpt f (a :: l) = some (b :: bs) := by
  unfold traverseOpt
  rw [ha, hl]

/-- Sample postprocess input row used by concrete instantiations. -/
def sampleStat : BracketStat := ⟨10, 3000⟩

/-- The postprocess output row for `sampleStat` under ceiling 2000 over a
population of 100. -/
def sampleRow : BracketResult := ⟨10, 3000, 10, 1000, 10000, 30000, 2000⟩

theorem postprocess_eval_sample :
    pipeline_postprocess [sampleStat] 2000 100 = some [sampleRow] := by
  have e1 : benefitsRaw 2000 sampleStat = 1000 := by
    norm_num [benefitsRaw, sampleStat]
  have e2 : castInt32 (benefitsRaw 2000 sampleStat) = some 1000 := by
    rw [e1]
    decide
  have e3 : postprocessRow 2000 100 sampleStat =
      some ⟨sampleStat.percentage, sampleStat.average_pension,
        sampleStat.percentage / 100 * ((100 : ℤ) : ℚ), 1000,
        ((1000 : ℤ) : ℚ) * (sampleStat.percentage / 100 * ((100 : ℤ) : ℚ)),
        sampleStat.average_pension * (sampleStat.percentage / 100 * ((100 : ℤ) : ℚ)),
        sampleStat.average_pension - ((1000 : ℤ) : ℚ)⟩ := by
    unfold postprocessRow
    rw [e2]
  rw [show (⟨sampleStat.percentage, sampleStat.average_pension,
      sampleStat.percentage / 100 * ((100 : ℤ) : ℚ), 1000,
      ((1000 : ℤ) : ℚ) * (sampleStat.percentage / 100 * ((100 : ℤ) : ℚ)),
      sampleStat.average_pension * (sampleStat.percentage / 100 * ((100 : ℤ) : ℚ)),
      sampleStat.average_pension - ((1000 : ℤ) : ℚ)⟩ : BracketResult) = sampleRow
    by simp only [sampleStat, sampleRow, BracketResult.mk.injEq]; norm_num] at e3
  exact traverseOpt_cons_some _ _ _ e3 (traverseOpt_nil _)

/-- Claim C1: for every row of the postprocess output, `average_benefits` is
`max(average_pension - ceiling, 0)` truncated toward zero, representable in a
32-bit signed integer; in particular a row with `average_pension = 3000` under
`ceiling = 2000` gets `average_benefits = 1000` and
`average_pension_after_ceiling = 2000`. -/
theorem C1_ceiling_rule (df : List BracketStat) (c n : ℤ) (out : List BracketResult)
    (h : pipeline_postprocess df c n = some out) (i : ℕ) (s : BracketStat)
    (r : BracketResult) (hs : df[i]? = some s) (hr : out[i]? = some r) :
    r.average_benefits = castTruncZ (max (s.average_pension - (c : ℚ)) 0) ∧
    -(2 ^ 31) ≤ r.average_benefits ∧ r.average_benefits < 2 ^ 31 ∧
    (s.average_pension = 3000 → c = 2000 →
      r.average_benefits = 1000 ∧ r.average_pension_after_ceiling = 2000) := by
  have hrow := pipeline_postprocess_row h hs hr
  obtain ⟨b, hc, rfl⟩ := postprocessRow_eq_some hrow
  obtain ⟨hb, hlo, hhi⟩ := castInt32_eq_some hc
  have hb' : b = castTruncZ (max (s.average_pension - (c : ℚ)) 0) := by
    rw [hb, benefitsRaw_eq_max]
  refine ⟨hb', by simpa [hb'] using hlo, by simpa [hb'] using hhi, ?_⟩
  intro h3 hc2
  subst hc2
  have hmax : max (s.average_pension - ((2000 : ℤ) : ℚ)) 0 = 1000 := by
    rw [h3]
    norm_num
  have hb1000 : b = 1000 := by
    rw [hb', hmax]
    decide
  constructor
  · exact hb1000
  · show s.average_pension - (b : ℚ) = 2000
    rw [h3, hb1000]
    norm_num

/-- Witness for C1 at `sampleStat` under ceiling 2000 and population 100. -/
theorem C1_ceiling_rule_witness :
    pipeline_postprocess [sampleStat] 2000 100 = some [sampleRow] ∧
    [sampleStat][0]? = some sampleStat ∧
    [sampleRow][0]? = some sampleRow ∧
    sampleRow.average_benefits = 1000 ∧
    sampleRow.average_pension_after_ceiling = 2000 := by
  have happ := C1_ceiling_rule [sampleStat] 2000 100 [sampleRow]
    postprocess_eval_sample 0 sampleStat sampleRow rfl rfl
  exact ⟨postprocess_eval_sample, rfl, rfl, (happ.2.2.2 rfl rfl).1,
    (happ.2.2.2 rfl rfl).2⟩

/-- Claim C5: every postprocess output row satisfies the four derived-column
equations of `pipeline/postprocess.py` lines 28-51. -/
theorem C5_derived_columns (df : List BracketStat) (c n : ℤ)
    (out : List BracketResult) (h : pipeline_postprocess df c n = some out)
    (i : ℕ) (s : BracketStat) (r : BracketResult)
    (hs : df[i]? = some s) (hr : out[i]? = some r) :
    r.number_pensioners = r.percentage / 100 * (n : ℚ) ∧
    r.total_average_benefits = (r.average_benefits : ℚ) * r.number_pensioners ∧
    r.total_average_pension = r.average_pension * r.number_pensioners ∧
    r.average_pension_after_ceiling = r.average_pension - (r.average_benefits : ℚ) := by
  have hrow := pipeline_postprocess_row h hs hr
  obtain ⟨b, hc, rfl⟩ := postprocessRow_eq_some hrow
  exact ⟨rfl, rfl, rfl, rfl⟩

/-- Witness for C5 at `sampleStat` under ceiling 2000 and population 100. -/
theorem C5_derived_columns_witness :
    pipeline_postprocess [sampleStat] 2000 100 = some [sampleRow] ∧
    sampleRow.number_pensioners = sampleRow.percentage / 100 * ((100 : ℤ) : ℚ) ∧
    sampleRow.total_average_benefits =
      (sampleRow.average_benefits : ℚ) * sampleRow.number_pensioners ∧
    sampleRow.total_average_pension =
      sampleRow.average_pension * sampleRow.number_pensioners ∧
    sampleRow.average_pension_after_ceiling =
      sampleRow.average_pension - (sampleRow.average_benefits : ℚ) :=
  ⟨postprocess_eval_sample,
    C5_derived_columns [sampleStat] 2000 100 [sampleRow]
      postprocess_eval_sample 0 sampleStat sampleRow rfl rfl⟩

/-- Postprocess output row for input row (0, 1000) under ceiling -100. -/
def C7row1 : BracketResult := ⟨0, 1000, 0, 1100, 0, 0, -100⟩

/-- Postprocess output row for input row (0, -5) under ceiling 2000. -/
def C7row2 : BracketResult := ⟨0, -5, 0, 0, 0, 0, -5⟩

theorem C7_eval1 : pipeline_postprocess [⟨0, 1000⟩] (-100) 0 = some [C7row1] := by
  have e1 : benefitsRaw (-100) ⟨0, 1000⟩ = 1100 := by
    norm_num [benefitsRaw]
  have e2 : castInt32 (benefitsRaw (-100) ⟨0, 1000⟩) = some 1100 := by
    rw [e1]
    decide
  have e3 : postprocessRow (-100) 0 ⟨0, 1000⟩ =
      some ⟨(0 : ℚ), 1000, (0 : ℚ) / 100 * ((0 : ℤ) : ℚ), 1100,
        ((1100 : ℤ) : ℚ) * ((0 : ℚ) / 100 * ((0 : ℤ) : ℚ)),
        (1000 : ℚ) * ((0 : ℚ) / 100 * ((0 : ℤ) : ℚ)),
        (1000 : ℚ) - ((1100 : ℤ) : ℚ)⟩ := by
    unfold postprocessRow
    rw [e2]
  rw [show (⟨(0 : ℚ), 1000, (0 : ℚ) / 100 * ((0 : ℤ) : ℚ), 1100,
      ((1100 : ℤ) : ℚ) * ((0 : ℚ) / 100 * ((0 : ℤ) : ℚ)),
      (1000 : ℚ) * ((0 : ℚ) / 100 * ((0 : ℤ) : ℚ)),
      (1000 : ℚ) - ((1100 : ℤ) : ℚ)⟩ : BracketResult) = C7row1
    by simp only [C7row1, BracketResult.mk.injEq]; norm_num] at e3
  exact traverseOpt_cons_some _ _ _ e3 (traverseOpt_nil _)

theorem C7_eval2 : pipeline_postprocess [⟨0, -5⟩] 2000 0 = some [C7row2] := by
  have e1 : benefitsRaw 2000 ⟨0, -5⟩ = 0 := by
    norm_num [benefitsRaw]
  have e2 : castInt32 (benefitsRaw 2000 ⟨0, -5⟩) = some 0 := by
    rw [e1]
    decide
  have e3 : postprocessRow 2000 0 ⟨0, -5⟩ =
      some ⟨(0 : ℚ), -5, (0 : ℚ) / 100 * ((0 : ℤ) : ℚ), 0,
        ((0 : ℤ) : ℚ) * ((0 : ℚ) / 100 * ((0 : ℤ) : ℚ)),
        (-5 : ℚ) * ((0 : ℚ) / 100 * ((0 : ℤ) : ℚ)),
        (-5 : ℚ) - ((0 : ℤ) : ℚ)⟩ := by
    unfold postprocessRow
    rw [e2]
  rw [show (⟨(0 : ℚ), -5, (0 : ℚ) / 100 * ((0 : ℤ) : ℚ), 0,
      ((0 : ℤ) : ℚ) * ((0 : ℚ) / 100 * ((0 : ℤ) : ℚ)),
      (-5 : ℚ) * ((0 : ℚ) / 100 * ((0 : ℤ) : ℚ)),
      (-5 : ℚ) - ((0 : ℤ) : ℚ)⟩ : BracketResult) = C7row2
    by simp only [C7row2, BracketResult.mk.injEq]; norm_num] at e3
  exact traverseOpt_cons_some _ _ _ e3 (traverseOpt_nil _)

/-- Claim C7 (counterexample): the invariant `average_benefits ≤
average_pension` fails for an arbitrary ceiling or input table: under the
negative ceiling -100 an input row (0, 1000) produces benefits 1100 > 1000,
and under ceiling 2000 an input row with negative average -5 produces
benefits 0 > -5. -/
theorem C7_counterexample :
    pipeline_postprocess [⟨0, 1000⟩] (-100) 0 = some [C7row1] ∧
    ¬((C7row1.average_benefits : ℚ) ≤ C7row1.average_pension) ∧
    pipeline_postprocess [⟨0, -5⟩] 2000 0 = some [C7row2] ∧
    ¬((C7row2.average_benefits : ℚ) ≤ C7row2.average_pension) := by
  refine ⟨C7_eval1, by norm_num [C7row1], C7_eval2, by norm_num [C7row2]⟩

/-- Claim C7 (amended): every postprocess output row has
`0 ≤ average_benefits`; and when the ceiling is nonnegative and the row's
input `average_pension` is nonnegative, `average_benefits ≤ average_pension`
also holds. -/
theorem C7_benefit_bounds (df : List BracketStat) (c n : ℤ)
    (out : List BracketResult) (h : pipeline_postprocess df c n = some out)
    (i : ℕ) (s : BracketStat) (r : BracketResult)
    (hs : df[i]? = some s) (hr : out[i]? = some r) :
    0 ≤ r.average_benefits ∧
    (0 ≤ c → 0 ≤ s.average_pension →
      (r.average_benefits : ℚ) ≤ r.average_pension) := by
  have hrow := pipeline_postprocess_row h hs hr
  obtain ⟨b, hc, rfl⟩ := postprocessRow_eq_some hrow
  obtain ⟨hb, hlo, hhi⟩ := castInt32_eq_some hc
  have hraw : (0 : ℚ) ≤ benefitsRaw c s := benefitsRaw_nonneg c s
  constructor
  · show 0 ≤ b
    rw [hb]
    exact castTruncZ_nonneg hraw
  · intro hcpos havg
    show (b : ℚ) ≤ s.average_pension
    have h1 : (b : ℚ) ≤ benefitsRaw c s := by
      rw [hb]
      exact castTruncZ_le hraw
    have h2 : benefitsRaw c s ≤ s.average_pension := by
      rw [benefitsRaw_eq_max]
      refine max_le ?_ havg
      have : (0 : ℚ) ≤ (c : ℚ) := by exact_mod_cast hcpos
      linarith
    linarith

/-- Witness for the amended C7 at `sampleStat` under ceiling 2000 and
population 100. -/
theorem C7_benefit_bounds_witness :
    pipeline_postprocess [sampleStat] 2000 100 = some [sampleRow] ∧
    (0 : ℤ) ≤ 2000 ∧ (0 : ℚ) ≤ sampleStat.average_pension ∧
    0 ≤ sampleRow.average_benefits ∧
    (sampleRow.average_benefits : ℚ) ≤ sampleRow.average_pension := by
  have happ := C7_benefit_bounds [sampleStat] 2000 100 [sampleRow]
    postprocess_eval_sample 0 sampleStat sampleRow rfl rfl
  exact ⟨postprocess_eval_sample, by norm_num, by norm_num [sampleStat],
    happ.1, happ.2 (by norm_num) (by norm_num [sampleStat])⟩

theorem preprocessRow_eq_some {r : BracketRecord} {st : BracketStat}
    (h : preprocessRow r = some st) :
    ∃ p m, cast_float r.percentage = some p ∧
      mean ((extract_numbers r.slice_amount).map (fun n : ℕ => (n : ℚ))) = some m ∧
      st = ⟨p, m⟩ := by
  unfold preprocessRow at h
  rcases hc : cast_float r.percentage with _ | p <;> rw [hc] at h
  · simp at h
  rcases hm : mean ((extract_numbers r.slice_amount).map (fun n : ℕ => (n : ℚ)))
      with _ | m <;> rw [hm] at h
  · simp at h
  · simp only [Option.some.injEq] at h
    exact ⟨p, m, rfl, rfl, h.symm⟩

theorem preprocessRow_eval {r : BracketRecord} {p m : ℚ}
    (hc : cast_float r.percentage = some p)
    (hm : mean ((extract_numbers r.slice_amount).map (fun n : ℕ => (n : ℚ))) = some m) :
    preprocessRow r = some ⟨p, m⟩ := by
  unfold preprocessRow
  rw [hc, hm]

theorem pipeline_preprocess_eq_some {df : List BracketRecord} {a : ℚ}
    {out : List BracketStat} (h : pipeline_preprocess df a = some out) :
    ∃ stats, (df.map BracketRecord.slice_amount).Nodup ∧
      traverseOpt preprocessRow df = some stats ∧ stats ≠ [] ∧
      out = setLastAvg a stats := by
  unfold pipeline_preprocess at h
  by_cases hn : (df.map BracketRecord.slice_amount).Nodup
  · rw [if_pos hn] at h
    rcases ht : traverseOpt preprocessRow df with _ | stats <;> rw [ht] at h
    · simp at h
    · rcases stats with _ | ⟨s0, rest⟩
      · simp at h
      · have h' : setLastAvg a (s0 :: rest) = out := by simpa using h
        exact ⟨s0 :: rest, hn, rfl, by simp, h'.symm⟩
  · rw [if_neg hn] at h
    simp at h

theorem pipeline_preprocess_eq_some_of {df : List BracketRecord} {a : ℚ}
    {stats : List BracketStat} (hn : (df.map BracketRecord.slice_amount).Nodup)
    (ht : traverseOpt preprocessRow df = some stats) (hne : stats ≠ []) :
    pipeline_preprocess df a = some (setLastAvg a stats) := by
  unfold pipeline_preprocess
  rw [if_pos hn, ht]
  rcases stats with _ | ⟨s0, rest⟩
  · exact absurd rfl hne
  · simp

theorem preprocess_none_of_extract_empty (df : List BracketRecord) (a : ℚ)
    (r : BracketRecord) (hmem : r ∈ df)
    (hext : extract_numbers r.slice_amount = []) :
    pipeline_preprocess df a = none := by
  unfold pipeline_preprocess
  by_cases hn : (df.map BracketRecord.slice_amount).Nodup
  · rw [if_pos hn]
    have hrow : preprocessRow r = none := by
      unfold preprocessRow
      rw [hext]
      rcases hc : cast_float r.percentage with _ | p <;> simp [mean]
    rw [traverseOpt_of_mem_none _ df r hmem hrow]
  · rw [if_neg hn]

/-- Sample clean output used by concrete instantiations: one bounded bracket
and one open-ended bracket. -/
def sampleRecords : List BracketRecord :=
  [⟨"100 - 200", "10"⟩, ⟨"4500 et plus", "90"⟩]

theorem preprocess_row1_eval : preprocessRow ⟨"100 - 200", "10"⟩ = some ⟨10, 150⟩ := by
  refine preprocessRow_eval (by decide) ?_
  rw [show extract_numbers (BracketRecord.slice_amount ⟨"100 - 200", "10"⟩) =
    [100, 200] from by decide]
  norm_num [mean]

theorem preprocess_row2_eval :
    preprocessRow ⟨"4500 et plus", "90"⟩ = some ⟨90, 4500⟩ := by
  refine preprocessRow_eval (by decide) ?_
  rw [show extract_numbers (BracketRecord.slice_amount ⟨"4500 et plus", "90"⟩) =
    [4500] from by decide]
  norm_num [mean]

theorem preprocess_eval_sample (a : ℚ) :
    pipeline_preprocess sampleRecords a = some [⟨10, 150⟩, ⟨90, a⟩] := by
  have ht : traverseOpt preprocessRow sampleRecords =
      some [⟨10, 150⟩, ⟨90, 4500⟩] :=
    traverseOpt_cons_some _ _ _ preprocess_row1_eval
      (traverseOpt_cons_some _ _ _ preprocess_row2_eval (traverseOpt_nil _))
  have h := pipeline_preprocess_eq_some_of (a := a) (by decide) ht (by simp)
  rw [h]
  simp [setLastAvg]

/-- Claim C2 (amended): preprocess fails with the empty-mean error whenever
zero digit runs are extracted from ANY row's label, including the last row:
the open-ended override is applied only after every row's mean (the last
row's included) has been computed successfully. -/
theorem C2_empty_extraction_fails (df : List BracketRecord) (a : ℚ)
    (r : BracketRecord) (hmem : r ∈ df)
    (hext : extract_numbers r.slice_amount = []) :
    pipeline_preprocess df a = none :=
  preprocess_none_of_extract_empty df a r hmem hext

/-- Input whose final row's label has no digits while the first row's does. -/
def C2df : List BracketRecord := [⟨"100 - 200", "10"⟩, ⟨"et plus", "90"⟩]

/-- Claim C2 (counterexample): on an input whose final row's label contains
no digits while every other row's label does (and whose percentages are
numeric), preprocess fails rather than succeeding with the open-ended
average: `statistics.mean` runs on the last row's empty extraction before
the positional override. -/
theorem C2_counterexample :
    extract_numbers ("100 - 200") ≠ [] ∧
    extract_numbers ("et plus") = [] ∧
    C2df[1]? = some ⟨"et plus", "90"⟩ ∧
    C2df.length = 2 ∧
    cast_float ("10") = some 10 ∧
    cast_float ("90") = some 90 ∧
    pipeline_preprocess C2df 8000 = none := by
  refine ⟨by decide, by decide, by decide, by decide, by decide, by decide, ?_⟩
  exact preprocess_none_of_extract_empty C2df 8000 ⟨"et plus", "90"⟩
    (by decide) (by decide)

/-- Witness for the amended C2 at `C2df`. -/
theorem C2_empty_extraction_fails_witness :
    (⟨"et plus", "90"⟩ : BracketRecord) ∈ C2df ∧
    extract_numbers (BracketRecord.slice_amount ⟨"et plus", "90"⟩) = [] ∧
    pipeline_preprocess C2df 8000 = none :=
  ⟨by decide, by decide,
    C2_empty_extraction_fails C2df 8000 ⟨"et plus", "90"⟩ (by decide) (by decide)⟩

/-- Claim C3: for every non-empty input table on which preprocess succeeds
and every `average_open_ended`, the last output row's `average_pension` is
exactly `average_open_ended`, independent of that row's label text. -/
theorem C3_last_row_override (df : List BracketRecord) (a : ℚ)
    (out : List BracketStat) (hne : df ≠ [])
    (h : pipeline_preprocess df a = some out) (i : ℕ) (hi : i + 1 = out.length) :
    ∃ st, out[i]? = some st ∧ st.average_pension = a := by
  obtain ⟨stats, hn, ht, hnil, rfl⟩ := pipeline_preprocess_eq_some h
  have hlen := setLastAvg_length a stats
  obtain ⟨s, hs, hset⟩ := setLastAvg_last a stats i (by omega)
  exact ⟨⟨s.percentage, a⟩, hset, rfl⟩

/-- Witness for C3 at `sampleRecords` with `average_open_ended = 8000`:
the open-ended row's label reads 4500 yet the output average is 8000. -/
theorem C3_last_row_override_witness :
    sampleRecords ≠ [] ∧
    pipeline_preprocess sampleRecords 8000 = some [⟨10, 150⟩, ⟨90, 8000⟩] ∧
    (1 : ℕ) + 1 = [(⟨10, 150⟩ : BracketStat), ⟨90, 8000⟩].length ∧
    [(⟨10, 150⟩ : BracketStat), ⟨90, 8000⟩][1]? = some ⟨90, 8000⟩ ∧
    (⟨(90 : ℚ), 8000⟩ : BracketStat).average_pension = 8000 := by
  obtain ⟨st, hst, havg⟩ := C3_last_row_override sampleRecords 8000
    [⟨10, 150⟩, ⟨90, 8000⟩] (by simp [sampleRecords]) (preprocess_eval_sample 8000)
    1 (by simp)
  have hst' : st = ⟨90, 8000⟩ := by
    simp only [List.getElem?_cons_succ, List.getElem?_cons_zero,
      Option.some.injEq] at hst
    exact hst.symm
  exact ⟨by simp [sampleRecords], preprocess_eval_sample 8000, by simp,
    rfl, by rw [← hst']; exact havg⟩

/-- Claim C4: every non-final preprocess output row's `average_pension` is
the arithmetic mean of the integers extracted from the row's label by the
`\d{1,6}` scan; the label `"1000 - 1200"` yields `[1000, 1200]` with mean
1100, and digits separated by a comma are extracted as separate numbers. -/
theorem C4_extraction_mean (df : List BracketRecord) (a : ℚ)
    (out : List BracketStat) (h : pipeline_preprocess df a = some out)
    (i : ℕ) (rec : BracketRecord) (st : BracketStat)
    (hrec : df[i]? = some rec) (hst : out[i]? = some st)
    (hi : i + 1 < out.length) :
    extract_numbers rec.slice_amount ≠ [] ∧
    st.average_pension =
      ((extract_numbers rec.slice_amount).map (fun n : ℕ => (n : ℚ))).sum /
        ((extract_numbers rec.slice_amount).length : ℚ) ∧
    extract_numbers ("1000 - 1200") = [1000, 1200] ∧
    ((extract_numbers ("1000 - 1200")).map (fun n : ℕ => (n : ℚ))).sum /
      ((extract_numbers ("1000 - 1200")).length : ℚ) = 1100 ∧
    extract_numbers ("12,5") = [12, 5] := by
  obtain ⟨stats, hn, ht, hnil, rfl⟩ := pipeline_preprocess_eq_some h
  have hlen := setLastAvg_length a stats
  have hst' : stats[i]? = some st := by
    rw [← setLastAvg_getElem?_of_lt a stats i (by omega)]
    exact hst
  obtain ⟨rec', hrec', hrow⟩ := traverseOpt_getElem? _ df stats ht i st hst'
  rw [hrec] at hrec'
  simp only [Option.some.injEq] at hrec'
  subst hrec'
  obtain ⟨p, m, hc, hm, rfl⟩ := preprocessRow_eq_some hrow
  obtain ⟨hne, hmean⟩ := mean_eq_some hm
  refine ⟨?_, ?_, by decide, ?_, by decide⟩
  · intro hnil2
    apply hne
    rw [hnil2]
    rfl
  · show m = _
    rw [hmean, List.length_map]
  · rw [show extract_numbers ("1000 - 1200") = [1000, 1200] from by decide]
    norm_num

/-- Witness for C4 at `sampleRecords`: the first (non-final) row's average
is the mean of the numbers extracted from its label. -/
theorem C4_extraction_mean_witness :
    pipeline_preprocess sampleRecords 8000 = some [⟨10, 150⟩, ⟨90, 8000⟩] ∧
    sampleRecords[0]? = some ⟨"100 - 200", "10"⟩ ∧
    [(⟨10, 150⟩ : BracketStat), ⟨90, 8000⟩][0]? = some ⟨10, 150⟩ ∧
    (0 : ℕ) + 1 < [(⟨10, 150⟩ : BracketStat), ⟨90, 8000⟩].length ∧
    extract_numbers (BracketRecord.slice_amount ⟨"100 - 200", "10"⟩) ≠ [] ∧
    (⟨(10 : ℚ), 150⟩ : BracketStat).average_pension =
      ((extract_numbers (BracketRecord.slice_amount ⟨"100 - 200", "10"⟩)).map
          (fun n : ℕ => (n : ℚ))).sum /
        ((extract_numbers (BracketRecord.slice_amount ⟨"100 - 200", "10"⟩)).length : ℚ) := by
  have happ := C4_extraction_mean sampleRecords 8000 [⟨10, 150⟩, ⟨90, 8000⟩]
    (preprocess_eval_sample 8000) 0 ⟨"100 - 200", "10"⟩ ⟨10, 150⟩
    (by decide) rfl (by simp)
  exact ⟨preprocess_eval_sample 8000, by decide, rfl, by simp, happ.1, happ.2.1⟩

/-- Claim C10: for a fixed input on which preprocess succeeds, the output for
any other `average_open_ended` also exists, has the same length, agrees on
every non-final row, and agrees on the final row's `percentage`: only the
final row's `average_pension` can depend on `average_open_ended`. -/
theorem C10_open_ended_frame (df : List BracketRecord) (a1 a2 : ℚ)
    (out1 : List BracketStat) (h1 : pipeline_preprocess df a1 = some out1) :
    ∃ out2, pipeline_preprocess df a2 = some out2 ∧
      out2.length = out1.length ∧
      (∀ (i : ℕ) (r1 r2 : BracketStat), i + 1 < out1.length →
        out1[i]? = some r1 → out2[i]? = some r2 → r1 = r2) ∧
      (∀ (i : ℕ) (r1 r2 : BracketStat), out1[i]? = some r1 →
        out2[i]? = some r2 → r1.percentage = r2.percentage) := by
  obtain ⟨stats, hn, ht, hnil, rfl⟩ := pipeline_preprocess_eq_some h1
  refine ⟨setLastAvg a2 stats, pipeline_preprocess_eq_some_of hn ht hnil,
    by rw [setLastAvg_length, setLastAvg_length], ?_, ?_⟩
  · intro i r1 r2 hi hr1 hr2
    have hlen := setLastAvg_length a1 stats
    rw [setLastAvg_getElem?_of_lt a1 stats i (by omega)] at hr1
    rw [setLastAvg_getElem?_of_lt a2 stats i (by omega)] at hr2
    rw [hr1] at hr2
    simpa using hr2
  · intro i r1 r2 hr1 hr2
    have e1 := setLastAvg_percentage a1 stats i
    have e2 := setLastAvg_percentage a2 stats i
    rw [hr1] at e1
    rw [hr2] at e2
    rw [← e2] at e1
    simpa using e1

/-- Witness for C10 at `sampleRecords` with open-ended averages 8000, 9000. -/
theorem C10_open_ended_frame_witness :
    pipeline_preprocess sampleRecords 8000 = some [⟨10, 150⟩, ⟨90, 8000⟩] ∧
    pipeline_preprocess sampleRecords 9000 = some [⟨10, 150⟩, ⟨90, 9000⟩] ∧
    (⟨(10 : ℚ), 150⟩ : BracketStat) = ⟨10, 150⟩ ∧
    (⟨(90 : ℚ), 8000⟩ : BracketStat).percentage =
      (⟨(90 : ℚ), 9000⟩ : BracketStat).percentage := by
  obtain ⟨out2, hout2, hlen, hbody, hpct⟩ := C10_open_ended_frame sampleRecords
    8000 9000 [⟨10, 150⟩, ⟨90, 8000⟩] (preprocess_eval_sample 8000)
  have hout2' : out2 = [⟨10, 150⟩, ⟨90, 9000⟩] := by
    have h9 := preprocess_eval_sample 9000
    rw [hout2] at h9
    simpa using h9
  subst hout2'
  refine ⟨preprocess_eval_sample 8000, hout2, ?_, ?_⟩
  · exact hbody 0 ⟨10, 150⟩ ⟨10, 150⟩ (by simp) rfl rfl
  · exact hpct 1 ⟨90, 8000⟩ ⟨90, 9000⟩ rfl rfl

theorem node_refresh_header_eq_some {f f2 : RawFrame}
    (h : node_refresh_header f = some f2) :
    f.rows = f2.cols :: f2.rows ∧ f2.cols.Nodup := by
  unfold node_refresh_header at h
  rcases hr : f.rows with _ | ⟨hd, rest⟩ <;> rw [hr] at h
  · simp at h
  · have h' : (if hd.Nodup then some (⟨hd, rest⟩ : RawFrame) else none) =
        some f2 := h
    by_cases hd2 : hd.Nodup
    · rw [if_pos hd2] at h'
      simp only [Option.some.injEq] at h'
      subst h'
      exact ⟨rfl, hd2⟩
    · rw [if_neg hd2] at h'
      simp at h'

theorem pipeline_clean_eq_some {f : RawFrame} {nf nl : ℕ}
    {recs : List BracketRecord} (h : pipeline_clean f nf nl = some recs) :
    ∃ f2, node_refresh_header (node_drop_lines f nf nl) = some f2 ∧
      montantCol ∈ f2.cols ∧ ensembleCol ∈ f2.cols ∧
      (f2.cols.map renameCol).Nodup ∧
      ((projectRecords f2).map BracketRecord.slice_amount).Nodup ∧
      recs = projectRecords f2 := by
  unfold pipeline_clean at h
  rcases hh : node_refresh_header (node_drop_lines f nf nl) with _ | f2 <;>
    rw [hh] at h
  · simp at h
  · have h' : (if montantCol ∈ f2.cols ∧ ensembleCol ∈ f2.cols then
        if (f2.cols.map renameCol).Nodup then
          if ((projectRecords f2).map BracketRecord.slice_amount).Nodup then
            some (projectRecords f2)
          else none
        else none
      else none) = some recs := h
    by_cases h1 : montantCol ∈ f2.cols ∧ ensembleCol ∈ f2.cols
    · rw [if_pos h1] at h'
      by_cases h3 : (f2.cols.map renameCol).Nodup
      · rw [if_pos h3] at h'
        by_cases h4 : ((projectRecords f2).map BracketRecord.slice_amount).Nodup
        · rw [if_pos h4] at h'
          simp only [Option.some.injEq] at h'
          exact ⟨f2, rfl, h1.1, h1.2, h3, h4, h'.symm⟩
        · rw [if_neg h4] at h'
          simp at h'
      · rw [if_neg h3] at h'
        simp at h'
    · rw [if_neg h1] at h'
      simp at h'

theorem pipeline_clean_eq_some_of {f : RawFrame} {nf nl : ℕ} {f2 : RawFrame}
    (hh : node_refresh_header (node_drop_lines f nf nl) = some f2)
    (h1 : montantCol ∈ f2.cols) (h2 : ensembleCol ∈ f2.cols)
    (h3 : (f2.cols.map renameCol).Nodup)
    (h4 : ((projectRecords f2).map BracketRecord.slice_amount).Nodup) :
    pipeline_clean f nf nl = some (projectRecords f2) := by
  unfold pipeline_clean
  rw [hh]
  show (if montantCol ∈ f2.cols ∧ ensembleCol ∈ f2.cols then
      if (f2.cols.map renameCol).Nodup then
        if ((projectRecords f2).map BracketRecord.slice_amount).Nodup then
          some (projectRecords f2)
        else none
      else none
    else none) = some (projectRecords f2)
  rw [if_pos ⟨h1, h2⟩, if_pos h3, if_pos h4]

theorem pipeline_clean_none_of_gate {f : RawFrame} {nf nl : ℕ} {f2 : RawFrame}
    (hh : node_refresh_header (node_drop_lines f nf nl) = some f2)
    (hgate : ¬ (montantCol ∈ f2.cols ∧ ensembleCol ∈ f2.cols)) :
    pipeline_clean f nf nl = none := by
  unfold pipeline_clean
  rw [hh]
  show (if montantCol ∈ f2.cols ∧ ensembleCol ∈ f2.cols then
      if (f2.cols.map renameCol).Nodup then
        if ((projectRecords f2).map BracketRecord.slice_amount).Nodup then
          some (projectRecords f2)
        else none
      else none
    else none) = none
  rw [if_neg hgate]

/-- Claim C6: for a raw table with enough rows on which the whole chain
succeeds, the final row count is `len(raw) - n_first - n_last - 1` (the extra
1 being the promoted header row); preprocess and postprocess each preserve
the row count, and rows stay aligned in order (row i of each stage's output
derives from row i of its input). -/
theorem C6_row_count (raw : RawFrame) (nf nl : ℕ) (a : ℚ) (c n : ℤ)
    (recs : List BracketRecord) (stats : List BracketStat)
    (out : List BracketResult)
    (h1 : pipeline_clean raw nf nl = some recs)
    (h2 : pipeline_preprocess recs a = some stats)
    (h3 : pipeline_postprocess stats c n = some out)
    (hrows : nf + nl + 1 ≤ raw.rows.length) :
    out.length = raw.rows.length - nf - nl - 1 ∧
    recs.length = raw.rows.length - nf - nl - 1 ∧
    stats.length = recs.length ∧
    out.length = stats.length ∧
    (∀ (i : ℕ) (st : BracketStat), stats[i]? = some st →
      ∃ rec, recs[i]? = some rec ∧ cast_float rec.percentage = some st.percentage) ∧
    (∀ (i : ℕ) (r : BracketResult), out[i]? = some r →
      ∃ st, stats[i]? = some st ∧ r.percentage = st.percentage ∧
        r.average_pension = st.average_pension) := by
  obtain ⟨f2, hh, _, _, _, _, hrecs⟩ := pipeline_clean_eq_some h1
  obtain ⟨hfr, _⟩ := node_refresh_header_eq_some hh
  have hdrop : (node_drop_lines raw nf nl).rows.length =
      raw.rows.length - nf - nl := by
    simp only [node_drop_lines, List.length_take, List.length_drop]
    omega
  have hrl : recs.length = f2.rows.length := by
    rw [hrecs]
    simp [projectRecords]
  have hreclen : recs.length = raw.rows.length - nf - nl - 1 := by
    have : (node_drop_lines raw nf nl).rows.length = f2.rows.length + 1 := by
      rw [hfr]
      rfl
    omega
  obtain ⟨stats0, hn, ht, hnil, rfl⟩ := pipeline_preprocess_eq_some h2
  have hsl : (setLastAvg a stats0).length = stats0.length := setLastAvg_length a stats0
  have hsl2 : stats0.length = recs.length := traverseOpt_length _ _ _ ht
  have hol : out.length = (setLastAvg a stats0).length := traverseOpt_length _ _ _ h3
  refine ⟨by omega, hreclen, by omega, by omega, ?_, ?_⟩
  · intro i st hst
    have e := setLastAvg_percentage a stats0 i
    rw [hst] at e
    rcases h0 : stats0[i]? with _ | st0
    · rw [h0] at e
      simp at e
    · rw [h0] at e
      obtain ⟨rec, hrec, hrow⟩ := traverseOpt_getElem? _ recs stats0 ht i st0 h0
      obtain ⟨p, m, hcf, _, hst0⟩ := preprocessRow_eq_some hrow
      refine ⟨rec, hrec, ?_⟩
      rw [hcf]
      have hpct : st.percentage = p := by
        rw [hst0] at e
        simpa using e
      rw [hpct]
  · intro i r hr
    obtain ⟨st, hst, hrow⟩ := traverseOpt_getElem? _ _ out h3 i r hr
    obtain ⟨b, _, rfl⟩ := postprocessRow_eq_some hrow
    exact ⟨st, hst, rfl, rfl⟩

/-- Sample raw sheet: banner row, real header row, two data rows, footer. -/
def sampleRaw : RawFrame :=
  ⟨["A", "B"],
   [["banner", "x"],
    [montantCol, ensembleCol],
    ["100 - 200", "10"],
    ["4500 et plus", "90"],
    ["footer", "y"]]⟩

theorem clean_eval_sample : pipeline_clean sampleRaw 1 1 = some sampleRecords := by
  decide

/-- Postprocess output row for the bounded sample bracket. -/
def C6row1 : BracketResult := ⟨10, 150, 10, 0, 0, 1500, 150⟩

/-- Postprocess output row for the open-ended sample bracket. -/
def C6row2 : BracketResult := ⟨90, 8000, 90, 6000, 540000, 720000, 2000⟩

theorem postprocess_eval_sample2 :
    pipeline_postprocess [⟨10, 150⟩, ⟨90, 8000⟩] 2000 100 =
      some [C6row1, C6row2] := by
  have e1 : castInt32 (benefitsRaw 2000 ⟨10, 150⟩) = some 0 := by
    rw [show benefitsRaw 2000 ⟨10, 150⟩ = 0 from by norm_num [benefitsRaw]]
    decide
  have e2 : castInt32 (benefitsRaw 2000 ⟨90, 8000⟩) = some 6000 := by
    rw [show benefitsRaw 2000 ⟨90, 8000⟩ = 6000 from by norm_num [benefitsRaw]]
    decide
  have h1 : postprocessRow 2000 100 ⟨10, 150⟩ =
      some ⟨(10 : ℚ), 150, (10 : ℚ) / 100 * ((100 : ℤ) : ℚ), 0,
        ((0 : ℤ) : ℚ) * ((10 : ℚ) / 100 * ((100 : ℤ) : ℚ)),
        (150 : ℚ) * ((10 : ℚ) / 100 * ((100 : ℤ) : ℚ)),
        (150 : ℚ) - ((0 : ℤ) : ℚ)⟩ := by
    unfold postprocessRow
    rw [e1]
  have h2 : postprocessRow 2000 100 ⟨90, 8000⟩ =
      some ⟨(90 : ℚ), 8000, (90 : ℚ) / 100 * ((100 : ℤ) : ℚ), 6000,
        ((6000 : ℤ) : ℚ) * ((90 : ℚ) / 100 * ((100 : ℤ) : ℚ)),
        (8000 : ℚ) * ((90 : ℚ) / 100 * ((100 : ℤ) : ℚ)),
        (8000 : ℚ) - ((6000 : ℤ) : ℚ)⟩ := by
    unfold postprocessRow
    rw [e2]
  rw [show (⟨(10 : ℚ), 150, (10 : ℚ) / 100 * ((100 : ℤ) : ℚ), 0,
      ((0 : ℤ) : ℚ) * ((10 : ℚ) / 100 * ((100 : ℤ) : ℚ)),
      (150 : ℚ) * ((10 : ℚ) / 100 * ((100 : ℤ) : ℚ)),
      (150 : ℚ) - ((0 : ℤ) : ℚ)⟩ : BracketResult) = C6row1
    from by simp only [C6row1, BracketResult.mk.injEq]; norm_num] at h1
  rw [show (⟨(90 : ℚ), 8000, (90 : ℚ) / 100 * ((100 : ℤ) : ℚ), 6000,
      ((6000 : ℤ) : ℚ) * ((90 : ℚ) / 100 * ((100 : ℤ) : ℚ)),
      (8000 : ℚ) * ((90 : ℚ) / 100 * ((100 : ℤ) : ℚ)),
      (8000 : ℚ) - ((6000 : ℤ) : ℚ)⟩ : BracketResult) = C6row2
    from by simp only [C6row2, BracketResult.mk.injEq]; norm_num] at h2
  exact traverseOpt_cons_some _ _ _ h1
    (traverseOpt_cons_some _ _ _ h2 (traverseOpt_nil _))

/-- Witness for C6 on `sampleRaw`: five raw rows, one banner and one footer
dropped, one header consumed, two bracket rows in the final output. -/
theorem C6_row_count_witness :
    pipeline_clean sampleRaw 1 1 = some sampleRecords ∧
    pipeline_preprocess sampleRecords 8000 = some [⟨10, 150⟩, ⟨90, 8000⟩] ∧
    pipeline_postprocess [⟨10, 150⟩, ⟨90, 8000⟩] 2000 100 =
      some [C6row1, C6row2] ∧
    1 + 1 + 1 ≤ sampleRaw.rows.length ∧
    [C6row1, C6row2].length = sampleRaw.rows.length - 1 - 1 - 1 := by
  have happ := C6_row_count sampleRaw 1 1 8000 2000 100 sampleRecords
    [⟨10, 150⟩, ⟨90, 8000⟩] [C6row1, C6row2] clean_eval_sample
    (preprocess_eval_sample 8000) postprocess_eval_sample2 (by decide)
  exact ⟨clean_eval_sample, preprocess_eval_sample 8000,
    postprocess_eval_sample2, by decide, happ.1⟩

/-- Claim C8 (amended): clean fails whenever a canonical target column is
absent after renaming, and whenever the slice labels are not unique after
projection; conversely it returns the projected two-column table provided
additionally that at least one row remains after dropping (so the header can
be promoted), the promoted header is duplicate-free before and after
renaming, and both original mapping keys are present in the promoted
header. -/
theorem C8_clean_schema (f : RawFrame) (nf nl : ℕ) :
    (∀ f2, node_refresh_header (node_drop_lines f nf nl) = some f2 →
      (sliceCol ∉ f2.cols.map renameCol ∨ percentageCol ∉ f2.cols.map renameCol) →
      pipeline_clean f nf nl = none) ∧
    (∀ f2, node_refresh_header (node_drop_lines f nf nl) = some f2 →
      ¬ ((projectRecords f2).map BracketRecord.slice_amount).Nodup →
      pipeline_clean f nf nl = none) ∧
    (∀ f2, node_refresh_header (node_drop_lines f nf nl) = some f2 →
      montantCol ∈ f2.cols → ensembleCol ∈ f2.cols →
      (f2.cols.map renameCol).Nodup →
      ((projectRecords f2).map BracketRecord.slice_amount).Nodup →
      pipeline_clean f nf nl = some (projectRecords f2)) := by
  refine ⟨?_, ?_, ?_⟩
  · intro f2 hh habs
    refine pipeline_clean_none_of_gate hh ?_
    rintro ⟨hm, he⟩
    rcases habs with h | h
    · exact h (List.mem_map.mpr ⟨montantCol, hm, by decide⟩)
    · exact h (List.mem_map.mpr ⟨ensembleCol, he, by decide⟩)
  · intro f2 hh hdup
    by_cases h1 : montantCol ∈ f2.cols ∧ ensembleCol ∈ f2.cols
    · unfold pipeline_clean
      rw [hh]
      show (if montantCol ∈ f2.cols ∧ ensembleCol ∈ f2.cols then
          if (f2.cols.map renameCol).Nodup then
            if ((projectRecords f2).map BracketRecord.slice_amount).Nodup then
              some (projectRecords f2)
            else none
          else none
        else none) = none
      rw [if_pos h1]
      by_cases h3 : (f2.cols.map renameCol).Nodup
      · rw [if_pos h3, if_neg hdup]
      · rw [if_neg h3]
    · exact pipeline_clean_none_of_gate hh h1
  · intro f2 hh h1 h2 h3 h4
    exact pipeline_clean_eq_some_of hh h1 h2 h3 h4

/-- An empty frame whose column labels are already the raw mapping keys. -/
def C8frame1 : RawFrame := ⟨[montantCol, ensembleCol], []⟩

/-- A frame whose promoted header already carries the two canonical names
so that the mapping keys are absent while the targets are present. -/
def C8frame2 : RawFrame := ⟨["A", "B"], [[sliceCol, percentageCol], ["x", "1"]]⟩

/-- A frame whose promoted header repeats a mapping key, so renaming would
create a duplicate column although both targets would be present. -/
def C8frame3 : RawFrame := ⟨["A", "B", "C"], [[montantCol, ensembleCol, ensembleCol]]⟩

/-- Claim C8 (counterexample): three frames on which neither stated failure
condition holds (both canonical columns present after renaming and slice
labels unique), yet clean fails instead of returning the two-column table:
with no row left to promote as header, with the canonical names already in
place of the mapping keys, and with a duplicated mapping key in the promoted
header. -/
theorem C8_counterexample :
    (C8frame1.cols.map renameCol = [sliceCol, percentageCol] ∧
      C8frame1.rows = [] ∧
      pipeline_clean C8frame1 0 0 = none) ∧
    (node_refresh_header (node_drop_lines C8frame2 0 0) =
        some ⟨[sliceCol, percentageCol], [["x", "1"]]⟩ ∧
      ([sliceCol, percentageCol].map renameCol) = [sliceCol, percentageCol] ∧
      ((projectRecords ⟨[sliceCol, percentageCol], [["x", "1"]]⟩).map
        BracketRecord.slice_amount).Nodup ∧
      pipeline_clean C8frame2 0 0 = none) ∧
    (sliceCol ∈ ([montantCol, ensembleCol, ensembleCol].map renameCol) ∧
      percentageCol ∈ ([montantCol, ensembleCol, ensembleCol].map renameCol) ∧
      pipeline_clean C8frame3 0 0 = none) := by
  exact ⟨⟨by decide, by decide, by decide⟩,
    ⟨by decide, by decide, by decide, by decide⟩,
    ⟨by decide, by decide, by decide⟩⟩

/-- Witness for the amended C8 on `sampleRaw`. -/
theorem C8_clean_schema_witness :
    node_refresh_header (node_drop_lines sampleRaw 1 1) =
      some ⟨[montantCol, ensembleCol],
        [["100 - 200", "10"], ["4500 et plus", "90"]]⟩ ∧
    montantCol ∈ [montantCol, ensembleCol] ∧
    ensembleCol ∈ [montantCol, ensembleCol] ∧
    ([montantCol, ensembleCol].map renameCol).Nodup ∧
    ((projectRecords ⟨[montantCol, ensembleCol],
        [["100 - 200", "10"], ["4500 et plus", "90"]]⟩).map
      BracketRecord.slice_amount).Nodup ∧
    pipeline_clean sampleRaw 1 1 =
      some (projectRecords ⟨[montantCol, ensembleCol],
        [["100 - 200", "10"], ["4500 et plus", "90"]]⟩) := by
  refine ⟨by decide, by decide, by decide, by decide, by decide, ?_⟩
  exact (C8_clean_schema sampleRaw 1 1).2.2
    ⟨[montantCol, ensembleCol], [["100 - 200", "10"], ["4500 et plus", "90"]]⟩
    (by decide) (by decide) (by decide) (by decide) (by decide)

/-- Claim C9: the summary aggregation's `percentage_benefits` is the sum of
`total_average_benefits` divided by the sum of `total_average_pension`, and
the aggregation fails with a division error exactly when the latter sum is
zero. -/
theorem C9_summary_aggregation (df : List BracketResult) :
    (calcul_statistics_pension_ceilings df = none ↔ totalPensionSum df = 0) ∧
    (∀ s, calcul_statistics_pension_ceilings df = some s →
      s.percentage_benefits = totalBenefitsSum df / totalPensionSum df ∧
      s.total_pension_month = totalPensionSum df ∧
      s.total_benefits_month = totalBenefitsSum df ∧
      s.total_pension_year = totalPensionSum df * 12 ∧
      s.total_benefits_year = totalBenefitsSum df * 12) := by
  unfold calcul_statistics_pension_ceilings
  by_cases h : totalPensionSum df = 0
  · rw [if_pos h]
    exact ⟨by simp [h], by simp⟩
  · rw [if_neg h]
    refine ⟨by simp [h], ?_⟩
    intro s hs
    simp only [Option.some.injEq] at hs
    rw [← hs]
    exact ⟨rfl, rfl, rfl, rfl, rfl⟩

/-- Sample postprocessed table for the summary aggregation. -/
def C9df : List BracketResult := [⟨10, 3000, 100, 1000, 100000, 300000, 2000⟩]

/-- Witness for C9 at `C9df`. -/
theorem C9_summary_aggregation_witness :
    calcul_statistics_pension_ceilings C9df =
      some ⟨100000, 1200000, 300000, 3600000, 1 / 3⟩ ∧
    (⟨(100000 : ℚ), 1200000, 300000, 3600000, 1 / 3⟩ :
        SummaryStats).percentage_benefits =
      totalBenefitsSum C9df / totalPensionSum C9df ∧
    ¬(calcul_statistics_pension_ceilings C9df = none) := by
  have hps : totalPensionSum C9df = 300000 := by
    norm_num [totalPensionSum, C9df]
  have hbs : totalBenefitsSum C9df = 100000 := by
    norm_num [totalBenefitsSum, C9df]
  have hev : calcul_statistics_pension_ceilings C9df =
      some ⟨100000, 1200000, 300000, 3600000, 1 / 3⟩ := by
    unfold calcul_statistics_pension_ceilings
    rw [if_neg (by rw [hps]; norm_num)]
    simp only [Option.some.injEq, SummaryStats.mk.injEq, hps, hbs]
    norm_num
  have happ := (C9_summary_aggregation C9df).2
    ⟨100000, 1200000, 300000, 3600000, 1 / 3⟩ hev
  refine ⟨hev, happ.1, ?_⟩
  intro hcontra
  have h0 := ((C9_summary_aggregation C9df).1.mp hcontra)
  rw [hps] at h0
  exact absurd h0 (by norm_num)
